import Mathlib

/-!
Shallow embedding of the Symphonia Vorbis decoder front-end
(src/symphonia-codec-vorbis/src/lib.rs), together with proofs about the
per-packet decode orchestrator, the identification-header parser, the
channel-coupling transform and the non-zero-vector propagation step.

Machine floats (`f32`) are embedded as exact rationals `ℚ`: every operation
the embedded code performs on samples is a comparison with zero, an addition,
a subtraction or a multiplication, and all concrete inputs used in the
theorems below are small integers, which `f32` represents exactly.

Code from sibling modules of the crate that is not part of the single source
file (the bit reader, codebooks, floors, residues, the IMDCT and the window
tables) is either modelled from the specification (marked `Modelled from the
spec:`) or abstracted as universally quantified hook functions, mirroring the
`Box<dyn Floor>` runtime polymorphism of the source.
-/

namespace Vorbis

/-- Error kinds surfaced by the decoder: `decodeErr` embeds
`decode_error(msg)`, `unsupportedErr` embeds `unsupported_error(msg)`, and
`ioShort` embeds running out of bytes or bits in the reader. -/
inductive Err where
  | ioShort
  | decodeErr (msg : String)
  | unsupportedErr (msg : String)
  deriving DecidableEq, Repr

/-! ### Bit reader

Modelled from the spec: `BitReaderRtl` / `ReadBitsRtl` live in
`symphonia-core` (not under src/). Spec §4.1: within each byte the LSB is
read first; `read_bits_leq32(k)` returns the next `k` bits with the first
bit read occupying bit 0 of the result; reads past the end fail with
`IoShort`. -/

/-- A right-to-left bit reader over a byte buffer: the bytes and the number
of bits already consumed. -/
structure BitReaderRtl where
  bytes : List Nat
  pos : Nat
  deriving DecidableEq, Repr

/-- The bit of the buffer at absolute bit position `pos` (LSB-first within
each byte). -/
def bitAt (bytes : List Nat) (pos : Nat) : Nat :=
  (bytes.getD (pos / 8) 0 >>> (pos % 8)) &&& 1

/-- Modelled from the spec: `read_bit` of the `symphonia-core` bit reader. -/
def readBit (bs : BitReaderRtl) : Except Err (Bool × BitReaderRtl) :=
  if bs.pos < 8 * bs.bytes.length then
    Except.ok (bitAt bs.bytes bs.pos == 1, ⟨bs.bytes, bs.pos + 1⟩)
  else
    Except.error Err.ioShort

/-- Modelled from the spec: `read_bits_leq32(k)` of the `symphonia-core` bit
reader; the first bit read occupies bit 0 of the result. -/
def readBitsLeq32 (k : Nat) (bs : BitReaderRtl) : Except Err (Nat × BitReaderRtl) :=
  if bs.pos + k ≤ 8 * bs.bytes.length then
    Except.ok ((List.range k).foldl (fun acc i => acc + (bitAt bs.bytes (bs.pos + i) <<< i)) 0,
      ⟨bs.bytes, bs.pos + k⟩)
  else
    Except.error Err.ioShort

/-- Fuel-based helper for `ilog` (the fuel bounds the recursion depth; `x`
itself always suffices since halving `x` reaches 0 within `x` steps). -/
def ilogGo : Nat → Nat → Nat
  | 0, _ => 0
  | fuel + 1, x => if x = 0 then 0 else ilogGo fuel (x / 2) + 1

/-- Modelled from the spec: `ilog(x)` from the crate's `common` module (not
under src/) returns the position of the highest set bit of `x`, with
`ilog(0) = 0`, `ilog(1) = 1`, `ilog(7) = 3`. -/
def ilog (x : Nat) : Nat := ilogGo x x

/-! ### Byte reader

Modelled from the spec: the `ReadBytes` byte source of `symphonia-core` (not
under src/). `read_u8` pops one byte, `read_u32` pops four little-endian
bytes, `read_buf_exact` on a 6-byte buffer pops six bytes; reads past the
end fail with `IoShort`. -/

/-- Modelled from the spec: `read_u8`. -/
def readU8 : List Nat → Except Err (Nat × List Nat)
  | [] => Except.error Err.ioShort
  | b :: r => Except.ok (b, r)

/-- Modelled from the spec: `read_u32` (little endian). -/
def readU32 : List Nat → Except Err (Nat × List Nat)
  | b0 :: b1 :: b2 :: b3 :: r =>
      Except.ok (b0 + 256 * b1 + 65536 * b2 + 16777216 * b3, r)
  | _ => Except.error Err.ioShort

/-- Modelled from the spec: `read_buf_exact` into a 6-byte signature
buffer. -/
def readSig6 : List Nat → Except Err (List Nat × List Nat)
  | a :: b :: c :: d :: e :: f :: r => Except.ok ([a, b, c, d, e, f], r)
  | _ => Except.error Err.ioShort

/-! ### Identification header (lib.rs `read_ident_header`) -/

/-- `IdentHeader` from lib.rs. -/
structure IdentHeader where
  n_channels : Nat
  sample_rate : Nat
  bs0_exp : Nat
  bs1_exp : Nat
  deriving DecidableEq, Repr

/-- The byte string `b"vorbis"`. -/
def vorbisSignature : List Nat := [118, 111, 114, 98, 105, 115]

/-- Embedding of `read_ident_header` from lib.rs: packet type must be 1,
signature must be `"vorbis"`, version must be 0, channels and sample rate
must be non-zero, three bitrate fields are skipped, the packed block-size
byte is split into nibbles which must lie in `[6, 13]` with
`bs0_exp ≤ bs1_exp`, and the trailing framing byte must be 1. -/
def readIdentHeader (bytes : List Nat) : Except Err IdentHeader :=
  match readU8 bytes with
  | Except.error e => Except.error e
  | Except.ok (packetType, r1) =>
    if packetType ≠ 1 then
      Except.error (Err.decodeErr "vorbis: invalid packet type for identification header")
    else
      match readSig6 r1 with
      | Except.error e => Except.error e
      | Except.ok (sig, r2) =>
        if sig ≠ vorbisSignature then
          Except.error (Err.decodeErr "vorbis: invalid header signature")
        else
          match readU32 r2 with
          | Except.error e => Except.error e
          | Except.ok (version, r3) =>
            if version ≠ 0 then
              Except.error (Err.unsupportedErr "vorbis: only vorbis 1 is supported")
            else
              match readU8 r3 with
              | Except.error e => Except.error e
              | Except.ok (nChannels, r4) =>
                if nChannels = 0 then
                  Except.error (Err.decodeErr "vorbis: number of channels cannot be 0")
                else
                  match readU32 r4 with
                  | Except.error e => Except.error e
                  | Except.ok (sampleRate, r5) =>
                    if sampleRate = 0 then
                      Except.error (Err.decodeErr "vorbis: sample rate cannot be 0")
                    else
                      match readU32 r5 with
                      | Except.error e => Except.error e
                      | Except.ok (_, r6) =>
                        match readU32 r6 with
                        | Except.error e => Except.error e
                        | Except.ok (_, r7) =>
                          match readU32 r7 with
                          | Except.error e => Except.error e
                          | Except.ok (_, r8) =>
                            match readU8 r8 with
                            | Except.error e => Except.error e
                            | Except.ok (blockSizes, r9) =>
                              let bs0Exp := blockSizes &&& 0x0f
                              let bs1Exp := (blockSizes &&& 0xf0) >>> 4
                              if bs0Exp < 6 ∨ 13 < bs0Exp then
                                Except.error (Err.decodeErr "vorbis: blocksize_0 out-of-bounds")
                              else if bs1Exp < 6 ∨ 13 < bs1Exp then
                                Except.error (Err.decodeErr "vorbis: blocksize_1 out-of-bounds")
                              else if bs1Exp < bs0Exp then
                                Except.error (Err.decodeErr "vorbis: blocksize_0 exceeds blocksize_1")
                              else
                                match readU8 r9 with
                                | Except.error e => Except.error e
                                | Except.ok (framing, _) =>
                                  if framing ≠ 1 then
                                    Except.error
                                      (Err.decodeErr "vorbis: ident header framing flag unset")
                                  else
                                    Except.ok
                                      { n_channels := nChannels, sample_rate := sampleRate,
                                        bs0_exp := bs0Exp, bs1_exp := bs1Exp }

/-- The four little-endian bytes of a `u32` value. -/
def u32Bytes (x : Nat) : List Nat :=
  [x % 256, x / 256 % 256, x / 65536 % 256, x / 16777216 % 256]

/-- A well-formed identification header packet up to the packed block-size
byte `b`: packet type 1, `"vorbis"` signature, version 0, `ch` channels,
sample rate `rate`, three zero bitrate fields, then `b` and a set framing
flag. -/
def identPacketBytes (ch rate b : Nat) : List Nat :=
  1 :: vorbisSignature ++ u32Bytes 0 ++ [ch] ++ u32Bytes rate ++
    u32Bytes 0 ++ u32Bytes 0 ++ u32Bytes 0 ++ [b, 1]

/-! ### Decoder data model (lib.rs structures) -/

/-- `ChannelCouple` from lib.rs. -/
structure ChannelCouple where
  magnitude_ch : Nat
  angle_ch : Nat
  deriving DecidableEq, Repr

/-- `SubMap` from lib.rs. -/
structure SubMap where
  floor : Nat
  residue : Nat
  deriving DecidableEq, Repr

/-- `Mapping` from lib.rs. -/
structure Mapping where
  couplings : List ChannelCouple
  multiplex : List Nat
  submaps : List SubMap
  deriving DecidableEq, Repr

/-- `Mode` from lib.rs. -/
structure Mode where
  block_flag : Bool
  window_type : Nat
  transform_type : Nat
  mapping : Nat
  deriving DecidableEq, Repr

/-- One precomputed MDCT window: the left and right half-window tables.
The table contents come from the crate's `window` module (not under src/)
and are carried opaquely as decoder state. -/
structure Window where
  left : List ℚ
  right : List ℚ
  deriving DecidableEq, Repr

/-- `Windows` from the crate's `window` module: the five window shapes the
decode loop selects between. -/
structure Windows where
  short : Window
  short_long_short : Window
  short_long_long : Window
  long_long_short : Window
  long_long_long : Window
  deriving DecidableEq, Repr

/-- `DspChannel` (crate `dsp` module; fields per spec §3): the per-channel
floor curve, residue vector and `do_not_decode` flag that lib.rs reads and
writes. The stored IMDCT overlap is owned by the `synth` hook's channel
state transition. -/
structure DspChannel where
  floor : List ℚ
  residue : List ℚ
  overlap : List ℚ
  do_not_decode : Bool
  deriving DecidableEq, Repr

/-- `LappingState` (crate `dsp` module; fields as used by lib.rs): the
previous block size and the previous window's right-half table. -/
structure LappingState where
  prev_block_size : Nat
  prev_win_right : List ℚ
  deriving DecidableEq, Repr

/-- `Dsp` from the crate's `dsp` module, restricted to the fields lib.rs
touches: the window tables, the channels, the residue scratch buffer and
the lapping state. The two IMDCT engines are internal scratch of the
`synth` hook. -/
structure Dsp where
  windows : Windows
  channels : List DspChannel
  residue_scratch : List ℚ
  lapping_state : Option LappingState
  deriving DecidableEq, Repr

/-- `VorbisDecoder` from lib.rs, restricted to the fields `decode` reads:
`α` is the internal state of the `Box<dyn Floor>` table (floors carry
mutable per-packet scratch); codebooks are immutable and are closed over by
the hooks. -/
structure VorbisDecoder (α : Type) where
  ident : IdentHeader
  floors : α
  modes : List Mode
  mappings : List Mapping
  dsp : Dsp

/-- Outcome of a decode stage that, like the Rust code operating on `&mut`
state, leaves its mutations visible even when it fails: `err` is an early
`return Err(..)`, `panic` is an out-of-bounds slice or index panic. -/
inductive StageOut (σ : Type) where
  | ok (s : σ)
  | err (s : σ) (e : Err)
  | panic (s : σ)
  deriving DecidableEq, Repr

/-- Result of a whole `decode` call: the emitted per-channel sample lists on
success, an error, or a panic. -/
inductive DecodeOut where
  | ok (out : List (List ℚ))
  | err (e : Err)
  | panic
  deriving DecidableEq, Repr

/-- Hook functions standing for the decode entry points of the sibling
modules that are not part of the source file (floors, residues, IMDCT
synthesis). Each receives exactly the state the corresponding Rust call
receives by reference in lib.rs, and returns the (possibly partially)
mutated state; none of them is handed the lapping state. -/
structure Hooks (α : Type) where
  floorRead : Nat → BitReaderRtl → α → StageOut (BitReaderRtl × α)
  floorIsUnused : Nat → α → Bool
  floorSynthesis : Nat → Nat → α → List ℚ → StageOut (α × List ℚ)
  residueRead : BitReaderRtl → Nat → Nat → List Bool → List ℚ → List DspChannel →
    StageOut (BitReaderRtl × List ℚ × List DspChannel)
  synth : Nat → DspChannel → Option LappingState → Window → DspChannel × List ℚ

/-! ### Section 4.3.1 — window decision (lib.rs lines 152–176) -/

/-- The window / block-exponent decision of `decode`: a long block reads the
`prev_window_flag` and `next_window_flag` bits and selects the long window
shape from the 2×2 table; a short block reads nothing and uses the short
window with exponent `bs0_exp`. -/
def windowDecode (ws : Windows) (bs0Exp bs1Exp : Nat) (blockFlag : Bool)
    (bs : BitReaderRtl) : Except Err (Nat × Window × BitReaderRtl) :=
  if blockFlag then
    match readBit bs with
    | Except.error e => Except.error e
    | Except.ok (prevFlag, bs1) =>
      match readBit bs1 with
      | Except.error e => Except.error e
      | Except.ok (nextFlag, bs2) =>
        let w :=
          match prevFlag, nextFlag with
          | false, false => ws.short_long_short
          | false, true => ws.short_long_long
          | true, false => ws.long_long_short
          | true, true => ws.long_long_long
        Except.ok (bs1Exp, w, bs2)
  else
    Except.ok (bs0Exp, ws.short, bs)

/-! ### Section 4.3.2 — floor curve decode loop (lib.rs lines 183–198) -/

/-- The floor loop of `decode`: iterate the mapping's multiplex entries
zipped with the channels; for each, look up the submap, read the floor from
the bitstream, set the channel's `do_not_decode` flag from
`floor.is_unused()`, and if the floor is used synthesize the floor curve
into the channel's floor buffer. An out-of-range submap index is a panic,
mirroring `mapping.submaps[submap_num as usize]`. -/
def floorLoop {α : Type} (hs : Hooks α) (submaps : List SubMap) (bsExp : Nat) :
    List Nat → List DspChannel → BitReaderRtl → α →
      StageOut (BitReaderRtl × α × List DspChannel)
  | [], chs, bs, fl => StageOut.ok (bs, fl, chs)
  | _ :: _, [], bs, fl => StageOut.ok (bs, fl, [])
  | mux :: muxes, ch :: chs, bs, fl =>
    match submaps.get? mux with
    | none => StageOut.panic (bs, fl, ch :: chs)
    | some sm =>
      match hs.floorRead sm.floor bs fl with
      | StageOut.err (bs1, fl1) e => StageOut.err (bs1, fl1, ch :: chs) e
      | StageOut.panic (bs1, fl1) => StageOut.panic (bs1, fl1, ch :: chs)
      | StageOut.ok (bs1, fl1) =>
        if hs.floorIsUnused sm.floor fl1 then
          match floorLoop hs submaps bsExp muxes chs bs1 fl1 with
          | StageOut.ok (bs2, fl2, chs2) =>
              StageOut.ok (bs2, fl2, { ch with do_not_decode := true } :: chs2)
          | StageOut.err (bs2, fl2, chs2) e =>
              StageOut.err (bs2, fl2, { ch with do_not_decode := true } :: chs2) e
          | StageOut.panic (bs2, fl2, chs2) =>
              StageOut.panic (bs2, fl2, { ch with do_not_decode := true } :: chs2)
        else
          match hs.floorSynthesis sm.floor bsExp fl1 ch.floor with
          | StageOut.err (fl2, newFloor) e =>
              StageOut.err
                (bs1, fl2, { ch with do_not_decode := false, floor := newFloor } :: chs) e
          | StageOut.panic (fl2, newFloor) =>
              StageOut.panic
                (bs1, fl2, { ch with do_not_decode := false, floor := newFloor } :: chs)
          | StageOut.ok (fl2, newFloor) =>
            match floorLoop hs submaps bsExp muxes chs bs1 fl2 with
            | StageOut.ok (bs2, fl3, chs2) =>
                StageOut.ok
                  (bs2, fl3, { ch with do_not_decode := false, floor := newFloor } :: chs2)
            | StageOut.err (bs2, fl3, chs2) e =>
                StageOut.err
                  (bs2, fl3, { ch with do_not_decode := false, floor := newFloor } :: chs2) e
            | StageOut.panic (bs2, fl3, chs2) =>
                StageOut.panic
                  (bs2, fl3, { ch with do_not_decode := false, floor := newFloor } :: chs2)

/-! ### Section 4.3.3 — non-zero vector propagate (lib.rs lines 204–214) -/

/-- One iteration of the propagation loop: read both coupled channels'
`do_not_decode` flags, and if they differ clear both. Indexing an
out-of-range channel is a panic, mirroring `self.dsp.channels[idx]`
(coupling indices are validated against the channel count during setup, in
`read_mapping_type0`). -/
def propagateStep (chs : List DspChannel) (c : ChannelCouple) :
    StageOut (List DspChannel) :=
  match chs.get? c.magnitude_ch, chs.get? c.angle_ch with
  | some mch, some ach =>
    if mch.do_not_decode != ach.do_not_decode then
      StageOut.ok
        ((chs.set c.magnitude_ch { mch with do_not_decode := false }).set c.angle_ch
          { ach with do_not_decode := false })
    else
      StageOut.ok chs
  | _, _ => StageOut.panic chs

/-- The whole propagation loop over the mapping's couplings. -/
def nonZeroPropagate : List ChannelCouple → List DspChannel → StageOut (List DspChannel)
  | [], chs => StageOut.ok chs
  | c :: cs, chs =>
    match propagateStep chs c with
    | StageOut.ok chs1 => nonZeroPropagate cs chs1
    | StageOut.err s e => StageOut.err s e
    | StageOut.panic s => StageOut.panic s

/-! ### Section 4.3.4 — residue decode loop (lib.rs lines 218–238) -/

/-- The `BitSet256` of channels whose multiplex entry selects submap
`submapIdx` (lib.rs lines 219–226), as a list of booleans indexed by
channel. -/
def residueChannels (multiplex : List Nat) (submapIdx : Nat) : List Bool :=
  multiplex.map (fun m => m == submapIdx)

/-- The residue loop of `decode`: for each submap (with its index), collect
the participating channel set and invoke the residue decoder hook with the
bit reader, the scratch buffer and the channels. -/
def residueLoop {α : Type} (hs : Hooks α) (multiplex : List Nat) (bsExp : Nat) :
    Nat → List SubMap → BitReaderRtl → List ℚ → List DspChannel →
      StageOut (BitReaderRtl × List ℚ × List DspChannel)
  | _, [], bs, scratch, chs => StageOut.ok (bs, scratch, chs)
  | i, sm :: sms, bs, scratch, chs =>
    match hs.residueRead bs bsExp sm.residue (residueChannels multiplex i) scratch chs with
    | StageOut.err s e => StageOut.err s e
    | StageOut.panic s => StageOut.panic s
    | StageOut.ok (bs1, scr1, chs1) => residueLoop hs multiplex bsExp (i + 1) sms bs1 scr1 chs1

/-! ### Section 4.3.5 — inverse coupling (lib.rs lines 242–278) -/

/-- The per-element inverse coupling transform (lib.rs lines 258–273): from
the decoded residues `(m, a)` compute the new magnitude / angle pair by the
sign-quadrant rule. -/
def coupleTransform (m a : ℚ) : ℚ × ℚ :=
  if 0 < m then
    if 0 < a then (m, m - a) else (m + a, m)
  else
    if 0 < a then (m, m + a) else (m - a, m)

/-- In-place application of `coupleTransform` to the first `n2` elements of
the magnitude and angle channels' residue vectors (the iteration of lib.rs
line 257: the `zip` stops at the shorter of the two `n2`-slices). -/
def inverseCoupling (n2 : Nat) (mag ang : List ℚ) : List ℚ × List ℚ :=
  let pairs := ((mag.take n2).zip (ang.take n2)).map (fun p => coupleTransform p.1 p.2)
  (pairs.map Prod.fst ++ mag.drop n2, pairs.map Prod.snd ++ ang.drop n2)

/-- One iteration of the inverse-coupling loop: fetch the coupled pair of
channels (panicking, like `split_at_mut` plus indexing, when the two
indices coincide or either is out of range), slice both residue vectors to
`n2` elements (panicking when a vector is shorter, like `residue[..n2]`),
and write back the transformed vectors. -/
def couplingStep (n2 : Nat) (chs : List DspChannel) (c : ChannelCouple) :
    StageOut (List DspChannel) :=
  match chs.get? c.magnitude_ch, chs.get? c.angle_ch with
  | some mch, some ach =>
    if c.magnitude_ch = c.angle_ch then StageOut.panic chs
    else if n2 ≤ mch.residue.length ∧ n2 ≤ ach.residue.length then
      let p := inverseCoupling n2 mch.residue ach.residue
      StageOut.ok
        ((chs.set c.magnitude_ch { mch with residue := p.1 }).set c.angle_ch
          { ach with residue := p.2 })
    else StageOut.panic chs
  | _, _ => StageOut.panic chs

/-- The whole inverse-coupling loop over the mapping's couplings. -/
def couplingLoop (n2 : Nat) : List ChannelCouple → List DspChannel → StageOut (List DspChannel)
  | [], chs => StageOut.ok chs
  | c :: cs, chs =>
    match couplingStep n2 chs c with
    | StageOut.ok chs1 => couplingLoop n2 cs chs1
    | StageOut.err s e => StageOut.err s e
    | StageOut.panic s => StageOut.panic s

/-! ### Section 4.3.6 — dot product (lib.rs lines 282–291) -/

/-- The dot-product loop: for every channel not marked `do_not_decode`,
multiply the first `n2` floor values by the corresponding residue values in
place (panicking when either buffer is shorter than `n2`, like
`floor[..n2]` / `residue[..n2]`). -/
def dotProductLoop (n2 : Nat) : List DspChannel → StageOut (List DspChannel)
  | [] => StageOut.ok []
  | ch :: chs =>
    if ch.do_not_decode then
      match dotProductLoop n2 chs with
      | StageOut.ok chs1 => StageOut.ok (ch :: chs1)
      | StageOut.err s e => StageOut.err (ch :: s) e
      | StageOut.panic s => StageOut.panic (ch :: s)
    else if n2 ≤ ch.floor.length ∧ n2 ≤ ch.residue.length then
      let ch1 :=
        { ch with
          floor := ((ch.floor.take n2).zipWith (fun f r => f * r) (ch.residue.take n2)) ++
            ch.floor.drop n2 }
      match dotProductLoop n2 chs with
      | StageOut.ok chs1 => StageOut.ok (ch1 :: chs1)
      | StageOut.err s e => StageOut.err (ch1 :: s) e
      | StageOut.panic s => StageOut.panic (ch1 :: s)
    else StageOut.panic (ch :: chs)

/-! ### Sections 4.3.7 / 4.3.8 — synthesis and emission (lib.rs lines 294–320) -/

/-- The render loop (lib.rs lines 305–314). The output buffer was cleared
and `renderLen` frames per channel were reserved (`render_reserved`,
modelled from the spec because `AudioBuffer` lives in `symphonia-core`):
each channel's emitted slice holds exactly `renderLen` samples. A channel
marked `do_not_decode` has its slice zero-filled and is otherwise left
untouched; any other channel is synthesized via the hook, which writes the
slice and updates the channel's overlap state. -/
def renderChannels {α : Type} (hs : Hooks α) (n : Nat) (lapping : Option LappingState)
    (window : Window) (renderLen : Nat) :
    List DspChannel → List DspChannel × List (List ℚ)
  | [] => ([], [])
  | ch :: chs =>
    let rest := renderChannels hs n lapping window renderLen chs
    if ch.do_not_decode then
      (ch :: rest.1, List.replicate renderLen 0 :: rest.2)
    else
      let s := hs.synth n ch lapping window
      (s.1 :: rest.1, (s.2.takeD renderLen 0) :: rest.2)

/-! ### The per-packet decode orchestrator (lib.rs lines 131–323) -/

/-- Embedding of `VorbisDecoder::decode`.

The control flow mirrors the source exactly: read the audio-packet bit, read
`ilog(modes.len() - 1)` bits as the mode number, bounds-check it with the
source's strict `>` comparison, look the mode up (an out-of-range index is a
panic), decide the window, run the floor loop, the non-zero propagation, the
residue loop, the inverse coupling, the dot product, then clear the output
buffer, reserve `(prev_block_size >> 2) + (n >> 2)` frames per channel when
there is a previous lapping state (zero frames otherwise), render every
channel, and only then — on the success path — overwrite
`dsp.lapping_state`. Every early exit returns the decoder state as mutated
so far, like the Rust `&mut self`.

`modes.len() - 1` is `Nat` truncated subtraction; the setup reader
guarantees at least one mode, so the Rust `usize` underflow for an empty
table is unreachable. -/
def decode {α : Type} (hs : Hooks α) (d : VorbisDecoder α) (packet : List Nat) :
    VorbisDecoder α × DecodeOut :=
  match readBit ⟨packet, 0⟩ with
  | Except.error e => (d, DecodeOut.err e)
  | Except.ok (b, bs1) =>
    if b then (d, DecodeOut.err (Err.decodeErr "vorbis: not an audio packet"))
    else
      match readBitsLeq32 (ilog (d.modes.length - 1)) bs1 with
      | Except.error e => (d, DecodeOut.err e)
      | Except.ok (modeNumber, bs2) =>
        if modeNumber > d.modes.length then
          (d, DecodeOut.err (Err.decodeErr "vorbis: invalid packet mode number"))
        else
          match d.modes.get? modeNumber with
          | none => (d, DecodeOut.panic)
          | some mode =>
            match d.mappings.get? mode.mapping with
            | none => (d, DecodeOut.panic)
            | some mapping =>
              match windowDecode d.dsp.windows d.ident.bs0_exp d.ident.bs1_exp
                  mode.block_flag bs2 with
              | Except.error e => (d, DecodeOut.err e)
              | Except.ok (bsExp, window, bs3) =>
                let n := 1 <<< bsExp
                let n2 := n >>> 1
                match floorLoop hs mapping.submaps bsExp mapping.multiplex
                    d.dsp.channels bs3 d.floors with
                | StageOut.err (_, fl1, chs1) e =>
                    ({ d with floors := fl1, dsp := { d.dsp with channels := chs1 } },
                      DecodeOut.err e)
                | StageOut.panic (_, fl1, chs1) =>
                    ({ d with floors := fl1, dsp := { d.dsp with channels := chs1 } },
                      DecodeOut.panic)
                | StageOut.ok (bs4, fl1, chs1) =>
                  match nonZeroPropagate mapping.couplings chs1 with
                  | StageOut.err chs2 e =>
                      ({ d with floors := fl1, dsp := { d.dsp with channels := chs2 } },
                        DecodeOut.err e)
                  | StageOut.panic chs2 =>
                      ({ d with floors := fl1, dsp := { d.dsp with channels := chs2 } },
                        DecodeOut.panic)
                  | StageOut.ok chs2 =>
                    match residueLoop hs mapping.multiplex bsExp 0 mapping.submaps bs4
                        d.dsp.residue_scratch chs2 with
                    | StageOut.err (_, scr1, chs3) e =>
                        ({ d with
                            floors := fl1,
                            dsp := { d.dsp with channels := chs3, residue_scratch := scr1 } },
                          DecodeOut.err e)
                    | StageOut.panic (_, scr1, chs3) =>
                        ({ d with
                            floors := fl1,
                            dsp := { d.dsp with channels := chs3, residue_scratch := scr1 } },
                          DecodeOut.panic)
                    | StageOut.ok (_, scr1, chs3) =>
                      match couplingLoop n2 mapping.couplings chs3 with
                      | StageOut.err chs4 e =>
                          ({ d with
                              floors := fl1,
                              dsp := { d.dsp with channels := chs4, residue_scratch := scr1 } },
                            DecodeOut.err e)
                      | StageOut.panic chs4 =>
                          ({ d with
                              floors := fl1,
                              dsp := { d.dsp with channels := chs4, residue_scratch := scr1 } },
                            DecodeOut.panic)
                      | StageOut.ok chs4 =>
                        match dotProductLoop n2 chs4 with
                        | StageOut.err chs5 e =>
                            ({ d with
                                floors := fl1,
                                dsp := { d.dsp with channels := chs5, residue_scratch := scr1 } },
                              DecodeOut.err e)
                        | StageOut.panic chs5 =>
                            ({ d with
                                floors := fl1,
                                dsp := { d.dsp with channels := chs5, residue_scratch := scr1 } },
                              DecodeOut.panic)
                        | StageOut.ok chs5 =>
                          let renderLen :=
                            match d.dsp.lapping_state with
                            | none => 0
                            | some prev => (prev.prev_block_size >>> 2) + (n >>> 2)
                          let r := renderChannels hs n d.dsp.lapping_state window renderLen chs5
                          ({ d with
                              floors := fl1,
                              dsp := { d.dsp with
                                channels := r.1,
                                residue_scratch := scr1,
                                lapping_state :=
                                  some ⟨n, window.right⟩ } },
                            DecodeOut.ok r.2)

/-! ### Concrete instances used by witnesses and counterexamples -/

/-- A concrete window table with distinguishable entries. -/
def windows1 : Windows :=
  { short := ⟨[1], [1]⟩, short_long_short := ⟨[2], [2]⟩, short_long_long := ⟨[3], [3]⟩,
    long_long_short := ⟨[4], [4]⟩, long_long_long := ⟨[5], [5]⟩ }

/-- Hooks whose floor, residue and synthesis stages succeed without touching
any state: floors always read as used, residues read nothing, synthesis
leaves the channel as-is and writes nothing to the output slice. -/
def trivialHooks : Hooks Unit where
  floorRead := fun _ bs fl => StageOut.ok (bs, fl)
  floorIsUnused := fun _ _ => false
  floorSynthesis := fun _ _ fl f => StageOut.ok (fl, f)
  residueRead := fun bs _ _ _ scr chs => StageOut.ok (bs, scr, chs)
  synth := fun _ ch _ _ => (ch, [])

/-- A short-block mode selecting mapping 0. -/
def mode0 : Mode := ⟨false, 0, 0, 0⟩

/-- A one-channel mapping with no couplings and a single submap. -/
def mapping0 : Mapping := ⟨[], [0], [⟨0, 0⟩]⟩

/-! ## Theorems -/

/-- C3 (counterexample): the inverse-coupling transform of decode step 4.3.5
is not an involution: at the concrete pair `(m, a) = (1, 2)` (exactly
representable in `f32`) the transform gives `(1, -1)` and applying it again
gives `(0, 1)`, not the original pair. -/
theorem coupling_transform_not_involution :
    coupleTransform 1 2 = (1, -1) ∧
    coupleTransform (coupleTransform 1 2).1 (coupleTransform 1 2).2 = (0, 1) ∧
    coupleTransform (coupleTransform 1 2).1 (coupleTransform 1 2).2 ≠ ((1 : ℚ), (2 : ℚ)) := by
  refine ⟨?_, ?_, ?_⟩ <;> norm_num [coupleTransform]

/-- C3 (amended): on pairs of integer values `(m, a)` with
`0 ≤ a ≤ m ≤ 2^24` the per-element inverse-coupling transform of decode
step 4.3.5 is an involution: applying it twice yields the original pair.
The integrality and magnitude bound make the exact-arithmetic embedding
coincide with the source's `f32` arithmetic on this domain: every input and
every intermediate the two applications compute (`m − a`, `m + a` with
`a = 0`, `m − (m − a)`) is an integer in `[0, 2^24]`, and `f32` represents
every such integer exactly and adds/subtracts them without rounding. The
restriction is necessary: outside `0 ≤ a ≤ m` the involution fails even in
exact arithmetic (see the counterexample at `(1, 2)`), and at larger
magnitudes `f32` rounding breaks it — e.g. at `(m, a) = (2^25, 1)` the
source's `m - a` rounds to `2^25`, so two applications give `(2^25, 0)`. -/
theorem coupling_transform_involution (mi ai : Nat) (hle : ai ≤ mi)
    (hbound : mi ≤ 2 ^ 24) :
    coupleTransform (coupleTransform (mi : ℚ) (ai : ℚ)).1
        (coupleTransform (mi : ℚ) (ai : ℚ)).2 = ((mi : ℚ), (ai : ℚ)) := by
  have h0 : (0 : ℚ) ≤ (ai : ℚ) := Nat.cast_nonneg ai
  have h1 : (ai : ℚ) ≤ (mi : ℚ) := by exact_mod_cast hle
  unfold coupleTransform
  split_ifs <;>
    simp_all only [Prod.mk.injEq, true_and, and_true] <;>
    first
      | linarith
      | constructor <;> linarith

/-- Witness for `coupling_transform_involution` at `(m, a) = (2, 1)`. -/
theorem coupling_transform_involution_witness :
    coupleTransform (coupleTransform 2 1).1 (coupleTransform 2 1).2 = ((2 : ℚ), (1 : ℚ)) := by
  have h := coupling_transform_involution 2 1 (by norm_num) (by norm_num)
  norm_num at h
  exact h

/-- `inverseCoupling` on a pair of cons cells with a positive count
transforms the heads and recurses on the tails. -/
theorem inverseCoupling_cons (n2 : Nat) (m a : ℚ) (mag ang : List ℚ) :
    inverseCoupling (n2 + 1) (m :: mag) (a :: ang) =
      ((coupleTransform m a).1 :: (inverseCoupling n2 mag ang).1,
        (coupleTransform m a).2 :: (inverseCoupling n2 mag ang).2) := by
  simp [inverseCoupling]

/-- `inverseCoupling` with a zero count changes nothing. -/
theorem inverseCoupling_zero (mag ang : List ℚ) :
    inverseCoupling 0 mag ang = (mag, ang) := by
  simp [inverseCoupling]

/-- C9, part inside the element range: the transformed vectors hold the
quadrant-rule images of the original elements. -/
theorem inverseCoupling_get_lt (n2 : Nat) (mag ang : List ℚ) (i : Nat)
    (hn : i < n2) (hm : i < mag.length) (ha : i < ang.length) :
    (inverseCoupling n2 mag ang).1.get? i =
      some (coupleTransform (mag.getD i 0) (ang.getD i 0)).1 ∧
    (inverseCoupling n2 mag ang).2.get? i =
      some (coupleTransform (mag.getD i 0) (ang.getD i 0)).2 := by
  induction mag generalizing ang n2 i with
  | nil => simp at hm
  | cons m magT ih =>
    cases ang with
    | nil => simp at ha
    | cons a angT =>
      cases n2 with
      | zero => omega
      | succ n2 =>
        rw [inverseCoupling_cons]
        cases i with
        | zero => simp
        | succ i =>
          simp only [List.get?_cons_succ, List.getD_cons_succ]
          simp only [List.length_cons] at hm ha
          apply ih <;> omega

/-- C9, part outside the element range: elements at positions `n2` and
above of both residue vectors are untouched (under the source's slicing
precondition `n2 ≤ length`). -/
theorem inverseCoupling_get_ge (n2 : Nat) (mag ang : List ℚ) (i : Nat)
    (hn : n2 ≤ i) (hm : n2 ≤ mag.length) (ha : n2 ≤ ang.length) :
    (inverseCoupling n2 mag ang).1.get? i = mag.get? i ∧
    (inverseCoupling n2 mag ang).2.get? i = ang.get? i := by
  induction mag generalizing ang n2 i with
  | nil =>
    have : n2 = 0 := by simpa using hm
    subst this
    simp [inverseCoupling_zero]
  | cons m magT ih =>
    cases n2 with
    | zero => simp [inverseCoupling_zero]
    | succ n2 =>
      cases ang with
      | nil => simp at ha
      | cons a angT =>
        rw [inverseCoupling_cons]
        cases i with
        | zero => omega
        | succ i =>
          simp only [List.get?_cons_succ]
          simp only [List.length_cons] at hm ha
          apply ih <;> omega

/-- C9: the inverse-coupling step computes each new (magnitude, angle) pair
from the decoded residues `(m, a)` exactly by the sign-quadrant rule
(`m>0, a>0 ↦ (m, m−a)`; `m>0, a≤0 ↦ (m+a, m)`; `m≤0, a>0 ↦ (m, m+a)`;
`m≤0, a≤0 ↦ (m−a, m)`), and it is applied in place to the first `n2 = n/2`
elements of both coupled channels' residue vectors, leaving the elements
from position `n2` on unchanged. -/
theorem inverse_coupling_rule (n2 : Nat) (mag ang : List ℚ) (hm : n2 ≤ mag.length)
    (ha : n2 ≤ ang.length) :
    (∀ m a : ℚ,
      (0 < m → 0 < a → coupleTransform m a = (m, m - a)) ∧
      (0 < m → a ≤ 0 → coupleTransform m a = (m + a, m)) ∧
      (m ≤ 0 → 0 < a → coupleTransform m a = (m, m + a)) ∧
      (m ≤ 0 → a ≤ 0 → coupleTransform m a = (m - a, m))) ∧
    (∀ i, i < n2 →
      (inverseCoupling n2 mag ang).1.get? i =
        some (coupleTransform (mag.getD i 0) (ang.getD i 0)).1 ∧
      (inverseCoupling n2 mag ang).2.get? i =
        some (coupleTransform (mag.getD i 0) (ang.getD i 0)).2) ∧
    (∀ i, n2 ≤ i →
      (inverseCoupling n2 mag ang).1.get? i = mag.get? i ∧
      (inverseCoupling n2 mag ang).2.get? i = ang.get? i) ∧
    (∀ chs c mch ach, chs.get? c.magnitude_ch = some mch →
      chs.get? c.angle_ch = some ach → c.magnitude_ch ≠ c.angle_ch →
      n2 ≤ mch.residue.length → n2 ≤ ach.residue.length →
      couplingStep n2 chs c = StageOut.ok
        ((chs.set c.magnitude_ch
            { mch with residue := (inverseCoupling n2 mch.residue ach.residue).1 }).set
          c.angle_ch
          { ach with residue := (inverseCoupling n2 mch.residue ach.residue).2 })) := by
  refine ⟨?_, ?_, ?_, ?_⟩
  · intro m a
    refine ⟨?_, ?_, ?_, ?_⟩ <;> intro h1 h2 <;> unfold coupleTransform <;>
      split_ifs <;> first | rfl | linarith
  · intro i hi
    exact inverseCoupling_get_lt n2 mag ang i hi (by omega) (by omega)
  · intro i hi
    exact inverseCoupling_get_ge n2 mag ang i hi hm ha
  · intro chs c mch ach hmc hac hne hlm hla
    unfold couplingStep
    rw [hmc, hac]
    simp [hne, hlm, hla]

/-- Witness for `inverse_coupling_rule` on concrete vectors: `n2 = 2`,
magnitude residues `[1, 2, 5]`, angle residues `[2, 1, 7]`. -/
theorem inverse_coupling_rule_witness :
    (inverseCoupling 2 [1, 2, 5] [2, 1, 7]).1.get? 0 =
      some (coupleTransform ((1 : ℚ)) ((2 : ℚ))).1 ∧
    (inverseCoupling 2 [1, 2, 5] [2, 1, 7]).1.get? 2 = some 5 ∧
    (inverseCoupling 2 [1, 2, 5] [2, 1, 7]).2.get? 2 = some 7 := by
  refine ⟨?_, ?_, ?_⟩
  · simpa using ((inverse_coupling_rule 2 [1, 2, 5] [2, 1, 7] (by decide) (by decide)).2.1 0
      (by decide)).1
  · simpa using ((inverse_coupling_rule 2 [1, 2, 5] [2, 1, 7] (by decide) (by decide)).2.2.1 2
      (by decide)).1
  · simpa using ((inverse_coupling_rule 2 [1, 2, 5] [2, 1, 7] (by decide) (by decide)).2.2.1 2
      (by decide)).2

/-- C6: for a coupling pair with valid distinct channel indices, one
iteration of the non-zero-propagation step maps the pair of `do_not_decode`
flags as follows and touches nothing else: if the two flags differ both
become false, if both are true they stay true, and if both are false they
stay false; the two channels' other fields and every other channel are
unchanged. -/
theorem nonzero_propagation_rule (chs : List DspChannel) (c : ChannelCouple)
    (mch ach : DspChannel) (hm : chs.get? c.magnitude_ch = some mch)
    (ha : chs.get? c.angle_ch = some ach) (hne : c.magnitude_ch ≠ c.angle_ch) :
    ∃ chs1, propagateStep chs c = StageOut.ok chs1 ∧
      chs1.get? c.magnitude_ch = some
        { mch with do_not_decode :=
            if mch.do_not_decode ≠ ach.do_not_decode then false else mch.do_not_decode } ∧
      chs1.get? c.angle_ch = some
        { ach with do_not_decode :=
            if mch.do_not_decode ≠ ach.do_not_decode then false else ach.do_not_decode } ∧
      ∀ j, j ≠ c.magnitude_ch → j ≠ c.angle_ch → chs1.get? j = chs.get? j := by
  have hmlen : c.magnitude_ch < chs.length := List.get?_eq_some.mp hm |>.choose
  have halen : c.angle_ch < chs.length := List.get?_eq_some.mp ha |>.choose
  unfold propagateStep
  rw [hm, ha]
  by_cases hd : mch.do_not_decode = ach.do_not_decode
  · refine ⟨chs, by simp [hd], ?_, ?_, fun j _ _ => rfl⟩
    · rw [hm, if_neg (not_not_intro hd)]
    · rw [ha, if_neg (not_not_intro hd)]
  · have hd2 : (mch.do_not_decode != ach.do_not_decode) = true := by
      simpa using hd
    refine ⟨(chs.set c.magnitude_ch { mch with do_not_decode := false }).set c.angle_ch
      { ach with do_not_decode := false }, by simp [hd2], ?_, ?_, ?_⟩
    · rw [List.get?_set_ne _ _ (Ne.symm hne), List.get?_set_eq_of_lt _ hmlen,
        if_pos hd]
    · rw [List.get?_set_eq_of_lt _ (by simpa using halen), if_pos hd]
    · intro j hj1 hj2
      rw [List.get?_set_ne _ _ (Ne.symm hj2), List.get?_set_ne _ _ (Ne.symm hj1)]

/-- Witness for `nonzero_propagation_rule`: two channels with differing
flags (channel 0 used, channel 1 unused) become both used. -/
theorem nonzero_propagation_rule_witness :
    ∃ chs1,
      propagateStep [⟨[], [], [], false⟩, ⟨[], [], [], true⟩] ⟨0, 1⟩ = StageOut.ok chs1 ∧
      chs1.get? 0 = some ⟨[], [], [], false⟩ ∧
      chs1.get? 1 = some ⟨[], [], [], false⟩ ∧
      ∀ j, j ≠ 0 → j ≠ 1 → chs1.get? j =
        ([⟨[], [], [], false⟩, ⟨[], [], [], true⟩] : List DspChannel).get? j := by
  have h := nonzero_propagation_rule [⟨[], [], [], false⟩, ⟨[], [], [], true⟩] ⟨0, 1⟩
    ⟨[], [], [], false⟩ ⟨[], [], [], true⟩ rfl rfl (by decide)
  simpa using h

/-- C10: the window decision of decode. When the selected mode's
`block_flag` is false, no flag bits are read (the bit reader is returned
unchanged), the short window is used and the block exponent is `bs0_exp`.
When `block_flag` is true, exactly two extra bits are consumed
(`prev_flag` at the current position, `next_flag` right after), the block
exponent is `bs1_exp`, and the long window shape follows the 2×2 table
(0,0) ↦ short-long-short, (0,1) ↦ short-long-long, (1,0) ↦ long-long-short,
(1,1) ↦ long-long-long. -/
theorem window_decision (ws : Windows) (bs0Exp bs1Exp : Nat) (bs : BitReaderRtl) :
    windowDecode ws bs0Exp bs1Exp false bs = Except.ok (bs0Exp, ws.short, bs) ∧
    (∀ e w bs2, windowDecode ws bs0Exp bs1Exp true bs = Except.ok (e, w, bs2) →
      e = bs1Exp ∧ bs2.bytes = bs.bytes ∧ bs2.pos = bs.pos + 2 ∧
      w = (match bitAt bs.bytes bs.pos == 1, bitAt bs.bytes (bs.pos + 1) == 1 with
        | false, false => ws.short_long_short
        | false, true => ws.short_long_long
        | true, false => ws.long_long_short
        | true, true => ws.long_long_long)) := by
  constructor
  · rfl
  · intro e w bs2 h
    unfold windowDecode readBit at h
    by_cases h1 : bs.pos < 8 * bs.bytes.length
    · by_cases h2 : bs.pos + 1 < 8 * bs.bytes.length
      · simp only [if_pos h1, if_pos h2] at h
        cases hb1 : bitAt bs.bytes bs.pos == 1 <;> cases hb2 : bitAt bs.bytes (bs.pos + 1) == 1 <;>
          rw [hb1] at h <;> simp only [hb2] at h <;>
          · cases h
            exact ⟨rfl, rfl, rfl, rfl⟩
      · simp [if_pos h1, if_neg h2] at h
    · simp [if_neg h1] at h

/-- Witness for `window_decision`: with the single byte `0b00000011` both
flag bits are 1, so a long block consumes two bits and selects the
long-long-long window. -/
theorem window_decision_witness :
    windowDecode windows1 6 13 false ⟨[3], 0⟩ = Except.ok (6, windows1.short, ⟨[3], 0⟩) ∧
    ((⟨[3], 2⟩ : BitReaderRtl).pos = (⟨[3], 0⟩ : BitReaderRtl).pos + 2 ∧
      windows1.long_long_long = windows1.long_long_long) := by
  constructor
  · exact (window_decision windows1 6 13 ⟨[3], 0⟩).1
  · have h := (window_decision windows1 6 13 ⟨[3], 0⟩).2 13 windows1.long_long_long ⟨[3], 2⟩ rfl
    exact ⟨h.2.2.1, rfl⟩

/-- Modelled from the spec: the output claim C4 predicts for a
`do_not_decode` channel — the pure decay of the previous block's stored
windowed right half over the emitted span, with no contribution from the
current packet. This definition follows the claim's words and is compared
against the behaviour of the code's render loop. -/
def specChannelDecayOutput (lap : LappingState) (renderLen : Nat) : List ℚ :=
  lap.prev_win_right.takeD renderLen 0

/-- A `do_not_decode` channel with a non-zero stored overlap. -/
def dndChannel : DspChannel := ⟨[0, 0], [0, 0], [1, 1], true⟩

/-- A lapping state whose stored previous windowed right half is non-zero. -/
def lapA : LappingState := ⟨4, [1, 1]⟩

/-- C4 (counterexample): a channel with `do_not_decode = true` and a
non-zero stored overlap. The render loop of decode (lib.rs lines 305–314)
writes zeros over the channel's whole emitted span, so the emitted samples
are not the decay of the stored overlap halves predicted by the claim —
the previous block's windowed right half `[1, 1]` does not appear. -/
theorem dnd_channel_not_overlap_decay :
    (renderChannels trivialHooks 4 (some lapA) windows1.short 2 [dndChannel]).2 =
      [[0, 0]] ∧
    specChannelDecayOutput lapA 2 = [1, 1] ∧
    ([[(0 : ℚ), 0]] : List (List ℚ)) ≠ [specChannelDecayOutput lapA 2] := by
  refine ⟨rfl, rfl, ?_⟩
  intro h
  rw [show specChannelDecayOutput lapA 2 = [1, 1] from rfl] at h
  have h2 : ((0 : ℚ)) = 1 := by
    have h1 : ([(0 : ℚ), 0] : List ℚ) = [1, 1] := by
      exact (List.cons.injEq _ _ _ _).mp h |>.1
    exact (List.cons.injEq _ _ _ _).mp h1 |>.1
  norm_num at h2

/-- C4 (amended): for every channel `c` whose `do_not_decode` flag is true
at render time, the render loop of decode emits exactly `renderLen` zero
samples (silence) for `c` and leaves `c`'s channel state untouched; the
stored overlap of the previous block is dropped, not decayed. -/
theorem dnd_channel_emits_silence {α : Type} (hs : Hooks α) (n : Nat)
    (lapping : Option LappingState) (window : Window) (renderLen : Nat)
    (chs : List DspChannel) (i : Nat) (ch : DspChannel)
    (hch : chs.get? i = some ch) (hdnd : ch.do_not_decode = true) :
    (renderChannels hs n lapping window renderLen chs).2.get? i =
      some (List.replicate renderLen 0) ∧
    (renderChannels hs n lapping window renderLen chs).1.get? i = some ch := by
  induction chs generalizing i with
  | nil => simp at hch
  | cons c0 rest ih =>
    cases i with
    | zero =>
      have hc0 : c0 = ch := by simpa using hch
      subst hc0
      simp [renderChannels, hdnd]
    | succ i =>
      have hrest : rest.get? i = some ch := by simpa using hch
      have h := ih i hrest
      unfold renderChannels
      by_cases hd0 : c0.do_not_decode <;> simp only [hd0, ite_true, ite_false,
        Bool.false_eq_true, List.get?_cons_succ] <;>
        exact ⟨by simpa using h.1, by simpa using h.2⟩

/-- Witness for `dnd_channel_emits_silence` at the concrete `dndChannel`. -/
theorem dnd_channel_emits_silence_witness :
    (renderChannels trivialHooks 4 (some lapA) windows1.short 2 [dndChannel]).2.get? 0 =
      some (List.replicate 2 0) ∧
    (renderChannels trivialHooks 4 (some lapA) windows1.short 2 [dndChannel]).1.get? 0 =
      some dndChannel :=
  dnd_channel_emits_silence trivialHooks 4 (some lapA) windows1.short 2 [dndChannel] 0
    dndChannel rfl rfl

/-- A decoder with five modes: `ilog(5 - 1) = 3` mode-number bits can
encode values up to 7, in particular the value 5. -/
def decoderFiveModes : VorbisDecoder Unit :=
  { ident := ⟨1, 8000, 6, 13⟩, floors := (),
    modes := List.replicate 5 mode0,
    mappings := [mapping0],
    dsp := ⟨windows1, [⟨[], [], [], false⟩], [], none⟩ }

/-- C2: decode is not total. With 5 modes the mode number is read from
`ilog(4) = 3` bits; the packet `[0x0A]` (audio bit 0, then bits 1,0,1)
decodes mode number 5, which passes the source's bounds check
`mode_number > self.modes.len()` (5 > 5 is false) yet is out of range for
`self.modes[mode_number]`: the embedded decode reaches the panic outcome. -/
theorem decode_mode_index_out_of_bounds :
    decoderFiveModes.modes.length = 5 ∧
    readBitsLeq32 (ilog (decoderFiveModes.modes.length - 1)) ⟨[10], 1⟩ =
      Except.ok (5, ⟨[10], 4⟩) ∧
    ¬ (5 : Nat) > decoderFiveModes.modes.length ∧
    decoderFiveModes.modes.get? 5 = none ∧
    decode trivialHooks decoderFiveModes [10] = (decoderFiveModes, DecodeOut.panic) := by
  refine ⟨rfl, rfl, by decide, rfl, rfl⟩

/-- C1 (the code, evaluated at the failing input): with 5 modes and packet
`[0x0A]` the decoded mode number 5 is not strictly less than
`modes.len()`, yet decode does not fail with the InvalidMode error — it
reaches the out-of-bounds mode lookup (panic) instead, because the bounds
check uses `>` where the claim (and the Vorbis I intent) requires `≥`. -/
theorem decode_missing_invalid_mode_error :
    decode trivialHooks decoderFiveModes [10] = (decoderFiveModes, DecodeOut.panic) ∧
    ∀ d2, decode trivialHooks decoderFiveModes [10] ≠
      (d2, DecodeOut.err (Err.decodeErr "vorbis: invalid packet mode number")) := by
  refine ⟨rfl, ?_⟩
  intro d2 h
  rw [show decode trivialHooks decoderFiveModes [10] = (decoderFiveModes, DecodeOut.panic)
    from rfl] at h
  exact DecodeOut.noConfusion (congrArg Prod.snd h)

/-- C8: a failed packet never mutates `lapping_state`. For every hook
implementation, every decoder state and every packet, if decode returns an
error then the decoder's `lapping_state` is exactly what it was before the
call: every error exit of decode precedes the assignment of the new lapping
state. -/
theorem decode_error_preserves_lapping {α : Type} (hs : Hooks α) (d : VorbisDecoder α)
    (packet : List Nat) (d2 : VorbisDecoder α) (e : Err)
    (h : decode hs d packet = (d2, DecodeOut.err e)) :
    d2.dsp.lapping_state = d.dsp.lapping_state := by
  unfold decode at h
  repeat' (first | split at h | dsimp only at h)
  all_goals injection h with h1 h2
  all_goals subst h1
  all_goals first | rfl | cases h2

/-- A one-channel, one-mode decoder with no previous lapping state. -/
def decoder1 : VorbisDecoder Unit :=
  { ident := ⟨1, 8000, 2, 3⟩, floors := (), modes := [mode0], mappings := [mapping0],
    dsp := ⟨windows1, [⟨[0, 0], [0, 0], [], false⟩], [], none⟩ }

/-- Witness for `decode_error_preserves_lapping`: an empty packet fails with
`IoShort` and leaves `lapping_state` untouched. -/
theorem decode_error_preserves_lapping_witness :
    decode trivialHooks decoder1 [] = (decoder1, DecodeOut.err Err.ioShort) ∧
    (decode trivialHooks decoder1 []).1.dsp.lapping_state = decoder1.dsp.lapping_state :=
  ⟨rfl, decode_error_preserves_lapping trivialHooks decoder1 [] decoder1 Err.ioShort rfl⟩

/-- Every per-channel output list produced by the render loop holds exactly
`renderLen` samples: the zero-fill of a `do_not_decode` channel and the
slice written by `synth` both have the reserved length. -/
theorem renderChannels_out_length {α : Type} (hs : Hooks α) (n : Nat)
    (lapping : Option LappingState) (window : Window) (renderLen : Nat)
    (chs : List DspChannel) :
    ∀ o ∈ (renderChannels hs n lapping window renderLen chs).2, o.length = renderLen := by
  induction chs with
  | nil => intro o ho; simp [renderChannels] at ho
  | cons c0 rest ih =>
    intro o ho
    simp only [renderChannels] at ho
    by_cases hd : c0.do_not_decode
    · simp only [hd, ite_true] at ho
      rcases List.mem_cons.mp ho with h | h
      · rw [h]; exact List.length_replicate _ _
      · exact ih o h
    · simp only [hd, ite_false, Bool.false_eq_true] at ho
      rcases List.mem_cons.mp ho with h | h
      · rw [h]; exact List.takeD_length _ _ _
      · exact ih o h

/-- C5: the output length law of decode. On every successful decode call,
if `lapping_state` was `None` (first packet after construction or reset)
every channel's returned buffer holds 0 samples; otherwise, with previous
block size `n_prev` (the stored `prev_block_size`) and current block size
`n_cur` (the `prev_block_size` decode stores on return), every channel's
buffer holds exactly `(n_prev + n_cur) / 4` samples (block sizes are powers
of two of exponent ≥ 6, hence divisible by 4). -/
theorem output_length_law {α : Type} (hs : Hooks α) (d : VorbisDecoder α)
    (packet : List Nat) (d2 : VorbisDecoder α) (outs : List (List ℚ))
    (h : decode hs d packet = (d2, DecodeOut.ok outs)) :
    (d.dsp.lapping_state = none → ∀ o ∈ outs, o.length = 0) ∧
    (∀ prev cur, d.dsp.lapping_state = some prev → d2.dsp.lapping_state = some cur →
      4 ∣ prev.prev_block_size → 4 ∣ cur.prev_block_size →
      ∀ o ∈ outs, o.length = (prev.prev_block_size + cur.prev_block_size) / 4) := by
  cases hL : d.dsp.lapping_state with
  | none =>
    refine ⟨?_, fun prev cur hsome => Option.noConfusion hsome⟩
    intro _ o ho
    unfold decode at h
    rw [hL] at h
    repeat' (first | dsimp only at h | split at h)
    all_goals injection h with h1 h2
    all_goals cases h2
    all_goals subst h1
    exact renderChannels_out_length _ _ _ _ _ _ o ho
  | some prev0 =>
    refine ⟨fun hnone => Option.noConfusion hnone, ?_⟩
    intro prev cur hsome hcur hdp hdc o ho
    have hprev : prev0 = prev := Option.some.inj hsome
    subst hprev
    unfold decode at h
    rw [hL] at h
    repeat' (first | dsimp only at h | split at h)
    all_goals injection h with h1 h2
    all_goals cases h2
    all_goals subst h1
    injection hcur with h5
    subst h5
    have hlen := renderChannels_out_length _ _ _ _ _ _ o ho
    rw [hlen]
    have e1 : ∀ x : Nat, x >>> 2 = x / 4 := fun x => by
      rw [Nat.shiftRight_eq_div_pow]
    rw [e1, e1]
    dsimp only at hdc ⊢
    omega

/-- A one-channel decoder with a stored previous block of size 4 (so the
witness decode emits `(4 + 4) / 4 = 2` samples per channel). -/
def decoder5 : VorbisDecoder Unit :=
  { ident := ⟨1, 8000, 2, 3⟩, floors := (), modes := [mode0], mappings := [mapping0],
    dsp := ⟨windows1, [⟨[0, 0], [0, 0], [], false⟩], [], some ⟨4, []⟩⟩ }

/-- Witness for `output_length_law`: a concrete successful decode with
previous block size 4 and current block size 4 emits exactly
`(4 + 4) / 4 = 2` samples on its only channel. -/
theorem output_length_law_witness :
    decode trivialHooks decoder5 [0] =
      ((decode trivialHooks decoder5 [0]).1, DecodeOut.ok [[0, 0]]) ∧
    ∀ o ∈ [[(0 : ℚ), 0]], o.length = (4 + 4) / 4 := by
  refine ⟨rfl, ?_⟩
  exact (output_length_law trivialHooks decoder5 [0] (decode trivialHooks decoder5 [0]).1
    [[0, 0]] rfl).2 ⟨4, []⟩ ⟨4, [1]⟩ rfl rfl ⟨1, rfl⟩ ⟨1, rfl⟩

/-- C7: block-size validation in `read_ident_header`. For every otherwise
well-formed identification packet whose packed block-size byte has a low
nibble (`bs0_exp`) or high nibble (`bs1_exp`) outside `[6, 13]`, or
`bs0_exp > bs1_exp`, parsing fails with one of the three InvalidHeader
block-size messages; the byte `0x67` (bs0 = 7, bs1 = 6) fails with
"blocksize_0 exceeds blocksize_1"; and every successfully parsed header has
both nibbles in `[6, 13]` with `bs0_exp ≤ bs1_exp`. -/
theorem ident_blocksize_validation :
    (∀ ch rate b : Nat, ch ≠ 0 → rate ≠ 0 → rate < 4294967296 →
      (b &&& 0x0f < 6 ∨ 13 < b &&& 0x0f ∨ (b &&& 0xf0) >>> 4 < 6 ∨
        13 < (b &&& 0xf0) >>> 4 ∨ (b &&& 0xf0) >>> 4 < b &&& 0x0f) →
      ∃ msg, readIdentHeader (identPacketBytes ch rate b) =
          Except.error (Err.decodeErr msg) ∧
        (msg = "vorbis: blocksize_0 out-of-bounds" ∨
          msg = "vorbis: blocksize_1 out-of-bounds" ∨
          msg = "vorbis: blocksize_0 exceeds blocksize_1")) ∧
    readIdentHeader (identPacketBytes 1 8000 0x67) =
      Except.error (Err.decodeErr "vorbis: blocksize_0 exceeds blocksize_1") ∧
    (∀ bytes hdr, readIdentHeader bytes = Except.ok hdr →
      6 ≤ hdr.bs0_exp ∧ hdr.bs0_exp ≤ 13 ∧ 6 ≤ hdr.bs1_exp ∧ hdr.bs1_exp ≤ 13 ∧
        hdr.bs0_exp ≤ hdr.bs1_exp) := by
  refine ⟨?_, rfl, ?_⟩
  · intro ch rate b hch hrate hlt hbad
    have hu32 : rate % 256 + 256 * (rate / 256 % 256) + 65536 * (rate / 65536 % 256) +
        16777216 * (rate / 16777216 % 256) = rate := by omega
    simp only [identPacketBytes, vorbisSignature, u32Bytes, List.cons_append, List.nil_append,
      readIdentHeader, readU8, readSig6, readU32]
    rw [hu32]
    simp only [hch, hrate, if_false, ite_false, reduceIte, ne_eq, not_true_eq_false,
      not_false_eq_true]
    split_ifs with h1 h2 h3
    · exact ⟨_, rfl, Or.inl rfl⟩
    · exact ⟨_, rfl, Or.inr (Or.inl rfl)⟩
    · exact ⟨_, rfl, Or.inr (Or.inr rfl)⟩
    · omega
  · intro bytes hdr h
    unfold readIdentHeader at h
    repeat' (first | dsimp only at h | split at h)
    all_goals cases h
    refine ⟨?_, ?_, ?_, ?_, ?_⟩ <;> dsimp only <;> omega

/-- Witness for `ident_blocksize_validation`: the packed block-size byte
`0x05` (low nibble 5 < 6) makes a valid one-channel, 8000 Hz packet fail
with an InvalidHeader block-size error. -/
theorem ident_blocksize_validation_witness :
    ∃ msg, readIdentHeader (identPacketBytes 1 8000 0x05) =
        Except.error (Err.decodeErr msg) ∧
      (msg = "vorbis: blocksize_0 out-of-bounds" ∨
        msg = "vorbis: blocksize_1 out-of-bounds" ∨
        msg = "vorbis: blocksize_0 exceeds blocksize_1") :=
  ident_blocksize_validation.1 1 8000 0x05 (by decide) (by decide) (by decide) (by decide)

end Vorbis
